import Mathlib

/-!
Verification of the career-vision response pipeline.

This file embeds, in Lean, the logic of `src/types.ts`:
`parseAnalysisText`, the request-building stage of
`generateImageAndAnalysis` (called `composeRequest` below, following the
specification's name for that stage), and its response-handling stage
(called `interpret` below).  JavaScript strings are modelled as `String`
(lists of characters); the two regular expressions used by
`parseAnalysisText` are embedded operationally, including the
case-insensitive flag, the greedy `\s*` with backtracking, and the lazy
`(.*?)`.  Machine-level details that no statement here depends on are
simplified as follows: the JS whitespace class `\s` is modelled by
`Char.isWhitespace`, the dot excludes `'\n'` and `'\r'` (but not the
exotic line separators ` `, ` `), and positions are counted in
code points rather than UTF-16 units (all characters involved lie in the
basic plane, where the two coincide).
-/

namespace CareerVision

set_option maxRecDepth 100000

/-- Lower-case an ASCII letter, as the `i` regex flag does on the
pattern letters that appear in the source (`Reason`, `Job Title`). -/
def lowerChar (c : Char) : Char :=
  if 'A' ≤ c && c ≤ 'Z' then Char.ofNat (c.toNat + 32) else c

/-- Model of the JS regex whitespace class `\s` (and of `String.trim`). -/
def jsIsSpace (c : Char) : Bool := c.isWhitespace

/-- `strStarts n h` holds when the character list `n` is an initial
segment of `h` (exact comparison). -/
def strStarts : List Char → List Char → Bool
  | [], _ => true
  | _ :: _, [] => false
  | p :: ps, c :: cs => p = c && strStarts ps cs

/-- `strHas n h` holds when `n` occurs contiguously somewhere in `h`. -/
def strHas (n : List Char) : List Char → Bool
  | [] => strStarts n []
  | c :: cs => strStarts n (c :: cs) || strHas n cs

/-- Case-insensitive initial-segment test: the pattern is given in lower
case and each text character is folded before comparison. -/
def ciStarts : List Char → List Char → Bool
  | [], _ => true
  | _ :: _, [] => false
  | p :: ps, c :: cs => p = lowerChar c && ciStarts ps cs

/-- JS `String.prototype.trim` on a character list. -/
def listTrim (l : List Char) : List Char :=
  ((l.dropWhile jsIsSpace).reverse.dropWhile jsIsSpace).reverse

/-- JS `String.prototype.replace` with a plain-string pattern and empty
replacement: remove the first occurrence of `pat` (if any). -/
def replaceFirst (pat : List Char) : List Char → List Char
  | [] => if strStarts pat [] then ([] : List Char).drop pat.length else []
  | c :: cs =>
    if strStarts pat (c :: cs) then (c :: cs).drop pat.length
    else c :: replaceFirst pat cs

/-- Accumulator pass of JS `String.prototype.split(',')`. -/
def splitCommaAux (acc : List Char) : List Char → List (List Char)
  | [] => [acc.reverse]
  | c :: cs =>
    if c = ',' then acc.reverse :: splitCommaAux [] cs
    else splitCommaAux (c :: acc) cs

/-- JS `s.split(',')`. -/
def jsSplitComma (s : String) : List String :=
  (splitCommaAux [] s.data).map String.mk

/-- JS truthiness of a possibly-absent string: `undefined` and `""` are
falsy, every other string is truthy. -/
def jsTruthyS : Option String → Bool
  | none => false
  | some s => s != ""

/-! ## The two regular expressions of `parseAnalysisText`

`/(?:Reason|이유):\s*(.*)/is` and `/(?:Job Title|직업명):\s*(.*?)\n/i`,
from `src/types.ts`. -/

/-- Lower-cased pattern for the `Reason` alternative. -/
def reasonPat : List Char := "reason:".data

/-- Pattern for the `이유` alternative (case folding does not affect it). -/
def iyuPat : List Char := "이유:".data

/-- Lower-cased pattern for the `Job Title` alternative. -/
def jobTitlePat : List Char := "job title:".data

/-- Pattern for the `직업명` alternative. -/
def jikPat : List Char := "직업명:".data

/-- Attempt `/(?:Reason|이유):\s*(.*)/is` anchored at the head of `s`,
returning the capture group: everything after the marker and the greedy
whitespace run, to the end of the string (`s` flag). -/
def reasonGroupAt (s : List Char) : Option (List Char) :=
  if ciStarts reasonPat s then some ((s.drop reasonPat.length).dropWhile jsIsSpace)
  else if ciStarts iyuPat s then some ((s.drop iyuPat.length).dropWhile jsIsSpace)
  else none

/-- `text.match(/(?:Reason|이유):\s*(.*)/is)`: scan left to right for the
first position where the pattern matches and return the capture group. -/
def findReason : List Char → Option (List Char)
  | [] => none
  | c :: cs =>
    match reasonGroupAt (c :: cs) with
    | some g => some g
    | none => findReason cs

/-- Lazy `(.*?)\n` (no `s` flag): the shortest run of characters other
than `'\n'`/`'\r'` followed by a newline.  Returns the captured run and
the remainder after the newline, or `none` when no such split exists. -/
def lazyDotNl : List Char → Option (List Char × List Char)
  | [] => none
  | c :: cs =>
    if c = '\n' then some ([], cs)
    else if c = '\r' then none
    else
      match lazyDotNl cs with
      | some (g, after) => some (c :: g, after)
      | none => none

/-- Backtracking over the greedy `\s*`: the whitespace run already
consumed is handed over reversed; the longest consumption is tried
first, and on failure of `(.*?)\n` one whitespace character is given
back to the dot-star. -/
def titleBacktrack (wsRev suffix : List Char) : Option (List Char × List Char) :=
  match lazyDotNl suffix with
  | some r => some r
  | none =>
    match wsRev with
    | [] => none
    | c :: ws2 => titleBacktrack ws2 (c :: suffix)

/-- Attempt `/(?:Job Title|직업명):\s*(.*?)\n/i` anchored at the head of
`s`; on success return the whole matched slice (JS `match[0]`) and the
capture group (JS `match[1]`). -/
def titleAt (s : List Char) : Option (List Char × List Char) :=
  let m : Option Nat :=
    if ciStarts jobTitlePat s then some jobTitlePat.length
    else if ciStarts jikPat s then some jikPat.length
    else none
  match m with
  | none => none
  | some n =>
    let rest := s.drop n
    let w := rest.takeWhile jsIsSpace
    match titleBacktrack w.reverse (rest.drop w.length) with
    | none => none
    | some (g, after) => some (s.take (s.length - after.length), g)

/-- `text.match(/(?:Job Title|직업명):\s*(.*?)\n/i)`: first matching
position, left to right. -/
def findTitle : List Char → Option (List Char × List Char)
  | [] => none
  | c :: cs =>
    match titleAt (c :: cs) with
    | some r => some r
    | none => findTitle cs

/-- Does the title marker (`Job Title:` case-insensitively, or
`직업명:`) start at this position? -/
def titleMarkerAt (s : List Char) : Bool :=
  ciStarts jobTitlePat s || ciStarts jikPat s

/-- Does the text contain a title marker anywhere? -/
def hasTitleMarker : List Char → Bool
  | [] => false
  | c :: cs => titleMarkerAt (c :: cs) || hasTitleMarker cs

/-- Does the reason marker (`Reason:` case-insensitively, or `이유:`)
start at this position? -/
def reasonMarkerAt (s : List Char) : Bool :=
  ciStarts reasonPat s || ciStarts iyuPat s

/-- Does the text contain a reason marker anywhere? -/
def hasReasonMarker : List Char → Bool
  | [] => false
  | c :: cs => reasonMarkerAt (c :: cs) || hasReasonMarker cs

/-! ## Data model (from `src/types.ts` and the `@google/genai` shapes it
consumes) -/

/-- Result type of `parseAnalysisText`. -/
structure ParsedAnalysis where
  title : String
  description : String
deriving DecidableEq, Repr

/-- `parseAnalysisText` from `src/types.ts`.  The optional second JS
parameter is an `Option`; the source tests it with JS truthiness, so
`none` and `some ""` take the same no-prompt path. -/
def parseAnalysisText (text : String) (userPrompt : Option String) : ParsedAnalysis :=
  if jsTruthyS userPrompt then
    let description :=
      match findReason text.data with
      | some g => String.mk (listTrim g)
      | none => text
    ⟨userPrompt.getD "", description⟩
  else
    let titleM := findTitle text.data
    let reasonM := findReason text.data
    let title :=
      match titleM with
      | some (_, g) => String.mk (listTrim g)
      | none => "분석 결과"
    let description :=
      match reasonM, titleM with
      | some g, _ => String.mk (listTrim g)
      | none, some (matched, _) => String.mk (listTrim (replaceFirst matched text.data))
      | none, none => text
    ⟨title, description⟩

/-- Inline image payload of a response part. -/
structure InlineData where
  mimeType : String
  data : String
deriving DecidableEq, Repr

/-- One content part of a candidate: image bytes and/or text, either of
which may be absent. -/
structure Part where
  inlineData : Option InlineData
  text : Option String
deriving DecidableEq, Repr

/-- Candidate content: a possibly-absent list of parts. -/
structure Content where
  parts : Option (List Part)
deriving DecidableEq, Repr

/-- A safety rating attached to a candidate. -/
structure SafetyRating where
  category : String
  blocked : Bool
deriving DecidableEq, Repr

/-- One candidate of the model response.  `finishReason` is the SDK
string enumeration (`"STOP"`, `"SAFETY"`, ...), absent when not set. -/
structure Candidate where
  content : Option Content
  finishReason : Option String
  safetyRatings : Option (List SafetyRating)
deriving DecidableEq, Repr

/-- Prompt-level feedback of the response. -/
structure PromptFeedback where
  blockReason : Option String
deriving DecidableEq, Repr

/-- The response shape consumed by the interpreter. -/
structure GenerateContentResponse where
  candidates : Option (List Candidate)
  promptFeedback : Option PromptFeedback
deriving DecidableEq, Repr

/-- `GenerationResult` from `src/types.ts`. -/
structure GenerationResult where
  image : String
  title : String
  description : String
deriving DecidableEq, Repr

/-! ## Request composition (lines 312-345 of `src/types.ts`) -/

/-- Inline data of the outbound image part; the `data` field is the JS
expression `imageBase64.split(',')[1]`, which may be `undefined`. -/
structure RequestInlineData where
  data : Option String
  mimeType : String
deriving DecidableEq, Repr

/-- One outbound content part. -/
inductive RequestPart where
  | image (inlineData : RequestInlineData)
  | text (t : String)
deriving DecidableEq, Repr

/-- The outbound payload: the `parts` array sent as `contents`. -/
structure RequestPayload where
  parts : List RequestPart
deriving DecidableEq, Repr

/-- Text of the instruction template used when a prompt is supplied,
before the first interpolation of the prompt. -/
def promptT1 : String := "You are a creative AI image editor. Your task is to modify the provided user image to represent a \""

/-- Template text between the first and second prompt interpolations. -/
def promptT2 : String := "\" and then describe your changes.\n\n**CRITICAL INSTRUCTIONS:**\n1.  **GENERATE IMAGE FIRST:** You MUST generate a new image by editing the original to reflect the \""

/-- Template text between the second and third prompt interpolations. -/
def promptT3 : String := "\" career. This is your primary task. For example, for a 'developer', you could add a laptop with code.\n2.  **GENERATE TEXT SECOND:** After generating the image, you MUST provide a description in Korean using this exact format:\n    \"이유: [당신이 생성한 이미지에서 '"

/-- Template text after the third prompt interpolation. -/
def promptT4 : String := "' 직업을 표현하기 위해 무엇을 변경했는지 설명하세요.]\"\n\n**MANDATORY OUTPUT:** Your final response MUST contain BOTH the generated image AND the text description. Do not respond with only text."

/-- The instruction template used when a career prompt is supplied
(the JS template literal with `${prompt}` interpolated three times). -/
def promptTemplate (prompt : String) : String :=
  promptT1 ++ prompt ++ promptT2 ++ prompt ++ promptT3 ++ prompt ++ promptT4

/-- The instruction template used when no career prompt is supplied. -/
def noPromptTemplate : String := "You are a creative AI image editor. Your task is to choose a suitable career for the person in the provided image, modify the image to represent that career, and then describe your changes.\n\n**CRITICAL INSTRUCTIONS:**\n1.  **GENERATE IMAGE FIRST:** You MUST generate a new image. First, analyze the person and choose a fitting career. Then, edit the original image to reflect that career. This is your primary task. For example, for a 'chef', you could add a kitchen background.\n2.  **GENERATE TEXT SECOND:** After generating the image, you MUST provide a description in Korean using this exact format:\n    \"직업명: [당신이 선택한 직업]\"\n    \"이유: [왜 이 직업을 선택했고, 당신이 생성한 이미지에서 무엇을 변경했는지 설명하세요.]\"\n\n**MANDATORY OUTPUT:** Your final response MUST contain BOTH the generated image AND the text description. Do not respond with only text."

/-- The request-building stage of `generateImageAndAnalysis` (lines
312-345): the image part first, then the instruction part, the latter
chosen by JS truthiness of the prompt. -/
def composeRequest (imageBase64 mimeType prompt : String) : RequestPayload :=
  { parts :=
      [ RequestPart.image ⟨(jsSplitComma imageBase64)[1]?, mimeType⟩,
        RequestPart.text (if prompt != "" then promptTemplate prompt else noPromptTemplate) ] }

/-! ## Response interpretation (lines 351-414 of `src/types.ts`) -/

/-- The classified failures thrown by the response-handling stage; one
constructor per `throw new Error(...)` site, carrying the data the
message interpolates.  `GenFailure.message` renders the exact source
message. -/
inductive GenFailure where
  | blockedRequest (message : String)
  | safetyBlockedFinish
  | safetyBlockedRating (category : String)
  | abnormalStop (finishReason : String)
  | incompletePayload (hasImage hasText : Bool)
deriving DecidableEq, Repr

/-- The exact `Error` message carried by each failure. -/
def GenFailure.message : GenFailure → String
  | .blockedRequest m => m
  | .safetyBlockedFinish => "Generation failed due to safety concerns. The model cannot process this request. Please try a different image or prompt."
  | .safetyBlockedRating cat => "Generation failed due to the safety policy for '" ++ cat ++ "'. Please try a different image or prompt."
  | .abnormalStop fr => "Generation stopped unexpectedly: " ++ fr ++ ". Please try a different image or prompt."
  | .incompletePayload hasImage hasText =>
    (if hasImage && !hasText then
      "The API returned an image but no descriptive text. The model might have failed to generate the analysis part."
    else if !hasImage && hasText then
      "The API returned an analysis but no image. The model might have failed to generate the image part."
    else
      "API did not return both an image and text. The model may have been unable to fulfill the request.")
    ++ " Please try again with a different image or prompt."

/-- The self-describing data URI built for an extracted image part. -/
def dataUriOf (d : InlineData) : String :=
  "data:" ++ d.mimeType ++ ";base64," ++ d.data

/-- One step of the part-extraction loop: a part with `inlineData`
overwrites the image (its text, if any, is ignored); otherwise a part
with truthy text overwrites the text. -/
def stepPart (st : Option String × Option String) (part : Part) :
    Option String × Option String :=
  match part.inlineData with
  | some d => (some (dataUriOf d), st.2)
  | none =>
    match part.text with
    | some t => if t != "" then (st.1, some t) else st
    | none => st

/-- The extraction loop over the candidate's parts: last image and last
truthy text win. -/
def extractParts (ps : List Part) : Option String × Option String :=
  ps.foldl stepPart (none, none)

/-- Extraction guarded by presence of `content` and `content.parts`
(the JS optional chain `candidate.content?.parts`). -/
def extractFromCandidate (c : Candidate) : Option String × Option String :=
  match c.content with
  | none => (none, none)
  | some ct =>
    match ct.parts with
    | none => (none, none)
    | some ps => extractParts ps

/-- `safetyRatings?.find(rating => rating.blocked)`. -/
def firstBlockedRating (c : Candidate) : Option SafetyRating :=
  match c.safetyRatings with
  | none => none
  | some rs => rs.find? (fun r => r.blocked)

/-- Message of the empty-candidate failure: the generic safety-block
message, overridden when `promptFeedback?.blockReason` is truthy. -/
def blockedMessage (response : GenerateContentResponse) : String :=
  match response.promptFeedback with
  | some pf =>
    match pf.blockReason with
    | some r =>
      if r != "" then "Request blocked: " ++ r ++ ". Please adjust your input."
      else "The request was blocked, likely for safety reasons. Please try a different image or prompt."
    | none => "The request was blocked, likely for safety reasons. Please try a different image or prompt."
  | none => "The request was blocked, likely for safety reasons. Please try a different image or prompt."

/-- The response-handling stage of `generateImageAndAnalysis` (lines
351-414): empty-candidate check, part extraction over the first
candidate, ordered failure classification, then text parsing. -/
def interpret (response : GenerateContentResponse) (prompt : String) :
    Except GenFailure GenerationResult :=
  match response.candidates with
  | none => .error (.blockedRequest (blockedMessage response))
  | some [] => .error (.blockedRequest (blockedMessage response))
  | some (candidate :: _) =>
    let ext := extractFromCandidate candidate
    let generatedImage := ext.1
    let analysisText := ext.2
    if jsTruthyS generatedImage && jsTruthyS analysisText then
      let parsed := parseAnalysisText (analysisText.getD "") (some prompt)
      .ok { image := generatedImage.getD "", title := parsed.title,
            description := parsed.description }
    else
      if candidate.finishReason = some "SAFETY" then
        .error .safetyBlockedFinish
      else
        match firstBlockedRating candidate with
        | some rating => .error (.safetyBlockedRating rating.category)
        | none =>
          match candidate.finishReason with
          | some fr =>
            if fr ≠ "" ∧ fr ≠ "STOP" then .error (.abnormalStop fr)
            else .error (.incompletePayload (jsTruthyS generatedImage) (jsTruthyS analysisText))
          | none => .error (.incompletePayload (jsTruthyS generatedImage) (jsTruthyS analysisText))

/-! ## General lemmas about the string helpers -/

theorem strStarts_length {n h : List Char} (hs : strStarts n h = true) :
    n.length ≤ h.length := by
  induction n generalizing h with
  | nil => simp
  | cons p ps ih =>
    cases h with
    | nil => simp [strStarts] at hs
    | cons c cs =>
      simp only [strStarts, Bool.and_eq_true] at hs
      simpa using ih hs.2

theorem strStarts_refl (n : List Char) : strStarts n n = true := by
  induction n with
  | nil => rfl
  | cons c cs ih => simp [strStarts, ih]

theorem strStarts_append {n u : List Char} (y : List Char) (hs : strStarts n u = true) :
    strStarts n (u ++ y) = true := by
  induction n generalizing u with
  | nil => rfl
  | cons p ps ih =>
    cases u with
    | nil => simp [strStarts] at hs
    | cons c cs =>
      simp only [strStarts, Bool.and_eq_true, List.cons_append] at hs ⊢
      exact ⟨hs.1, ih hs.2⟩

theorem strStarts_of_append_le {n u y : List Char} (hs : strStarts n (u ++ y) = true)
    (hl : n.length ≤ u.length) : strStarts n u = true := by
  induction n generalizing u with
  | nil => rfl
  | cons p ps ih =>
    cases u with
    | nil => simp at hl
    | cons c cs =>
      simp only [List.cons_append, strStarts, Bool.and_eq_true] at hs ⊢
      exact ⟨hs.1, ih hs.2 (by simpa using hl)⟩

theorem strStarts_cover_mem {n u y : List Char} (hs : strStarts n (u ++ y) = true)
    (hl : u.length < n.length) : ∀ c ∈ u, c ∈ n := by
  induction u generalizing n with
  | nil => simp
  | cons a u' ih =>
    cases n with
    | nil => simp at hl
    | cons p ps =>
      simp only [List.cons_append, strStarts, Bool.and_eq_true, decide_eq_true_eq] at hs
      intro c hc
      rcases List.mem_cons.mp hc with h1 | h2
      · rw [h1, ← hs.1]; exact List.mem_cons_self p ps
      · exact List.mem_cons_of_mem _ (ih hs.2 (by simpa using hl) c h2)

theorem strStarts_head_mem {n u : List Char} {c : Char} {cs : List Char}
    (hs : strStarts n (u ++ c :: cs) = true) (hl : u.length < n.length) : c ∈ n := by
  induction u generalizing n with
  | nil =>
    cases n with
    | nil => simp at hl
    | cons p ps =>
      simp only [List.nil_append, strStarts, Bool.and_eq_true, decide_eq_true_eq] at hs
      rw [← hs.1]; exact List.mem_cons_self p ps
  | cons a u' ih =>
    cases n with
    | nil => simp at hl
    | cons p ps =>
      simp only [List.cons_append, strStarts, Bool.and_eq_true] at hs
      exact List.mem_cons_of_mem _ (ih hs.2 (by simpa using hl))

theorem strHas_of_starts {n h : List Char} (hs : strStarts n h = true) : strHas n h = true := by
  cases h with
  | nil => simpa [strHas] using hs
  | cons c cs => simp [strHas, hs]

theorem strHas_cons {n : List Char} (c : Char) {cs : List Char} (hh : strHas n cs = true) :
    strHas n (c :: cs) = true := by
  simp [strHas, hh]

theorem strHas_nil_pat (h : List Char) : strHas [] h = true := by
  induction h with
  | nil => rfl
  | cons c cs ih => simp [strHas, strStarts]

theorem strHas_append_left {n x : List Char} (y : List Char) (hx : strHas n x = true) :
    strHas n (x ++ y) = true := by
  induction x with
  | nil =>
    cases n with
    | nil => exact strHas_nil_pat y
    | cons p ps => simp [strHas, strStarts] at hx
  | cons c cs ih =>
    simp only [strHas, Bool.or_eq_true] at hx
    rcases hx with h1 | h2
    · exact strHas_of_starts (by simpa [List.cons_append] using strStarts_append y h1)
    · simpa [List.cons_append] using strHas_cons c (ih h2)

theorem strHas_append_right {n y : List Char} (x : List Char) (hy : strHas n y = true) :
    strHas n (x ++ y) = true := by
  induction x with
  | nil => simpa
  | cons c cs ih => simpa [List.cons_append] using strHas_cons c ih

theorem getLast?_cons_of_some {α : Type} {l : List α} {a c : α} (h : l.getLast? = some c) :
    (a :: l).getLast? = some c := by
  cases l with
  | nil => simp at h
  | cons b l' => rw [List.getLast?_cons_cons]; exact h

/-- Occurrence of `n` in a concatenation: either inside one of the two
pieces, or a straddling occurrence, in which case both the last
character of `x` and the first character of `y` belong to `n`. -/
theorem strHas_append_cases {n x y : List Char} (h : strHas n (x ++ y) = true) :
    strHas n x = true ∨ strHas n y = true ∨
      ((∃ c, x.getLast? = some c ∧ c ∈ n) ∧ (∃ c, y.head? = some c ∧ c ∈ n)) := by
  induction x with
  | nil => exact Or.inr (Or.inl (by simpa using h))
  | cons a x' ih =>
    rw [List.cons_append, strHas] at h
    simp only [Bool.or_eq_true] at h
    rcases h with hstart | htail
    · by_cases hl : n.length ≤ (a :: x').length
      · exact Or.inl (strHas_of_starts
          (strStarts_of_append_le (by simpa [List.cons_append] using hstart) hl))
      · push_neg at hl
        cases y with
        | nil =>
          exact absurd (strStarts_length (by simpa using hstart)) (by simpa using hl.not_le)
        | cons b ys =>
          refine Or.inr (Or.inr ⟨?_, ?_⟩)
          · have hcover := strStarts_cover_mem (n := n) (u := a :: x') (y := b :: ys)
              (by simpa [List.cons_append] using hstart) hl
            refine ⟨(a :: x').getLast (by simp), ?_, hcover _ (List.getLast_mem _)⟩
            exact List.getLast?_eq_getLast _ _
          · exact ⟨b, rfl, strStarts_head_mem (u := a :: x')
              (by simpa [List.cons_append] using hstart) hl⟩
    · rcases ih htail with h1 | h2 | ⟨⟨c, hc, hcn⟩, hy⟩
      · exact Or.inl (strHas_cons a h1)
      · exact Or.inr (Or.inl h2)
      · exact Or.inr (Or.inr ⟨⟨c, getLast?_cons_of_some hc, hcn⟩, hy⟩)

/-- Elimination step used to walk occurrence facts through the
template concatenations: when the needle does not occur in `x` and one
of the two boundary characters cannot belong to the needle, an
occurrence in `x ++ y` must lie inside `y`. -/
theorem strHas_append_resolve {n x y : List Char} (h : strHas n (x ++ y) = true)
    (hx : strHas n x = false)
    (hside : (∀ c, x.getLast? = some c → c ∉ n) ∨ (∀ c, y.head? = some c → c ∉ n)) :
    strHas n y = true := by
  rcases strHas_append_cases h with h1 | h2 | ⟨⟨c, hc, hcn⟩, ⟨d, hd, hdn⟩⟩
  · rw [hx] at h1; cases h1
  · exact h2
  · rcases hside with hs | hs
    · exact absurd hcn (hs c hc)
    · exact absurd hdn (hs d hd)

/-! ## Characterisation of the extraction loop -/

/-- The inline payloads of the image-bearing parts, in order. -/
def imageDatas (ps : List Part) : List InlineData :=
  ps.filterMap (fun p => p.inlineData)

/-- The text a part contributes to extraction: present only when the
part has no `inlineData` and its text is truthy. -/
def partTextValue (p : Part) : Option String :=
  match p.inlineData with
  | some _ => none
  | none =>
    match p.text with
    | some t => if t != "" then some t else none
    | none => none

/-- The texts contributed by the parts, in order. -/
def textValues (ps : List Part) : List String := ps.filterMap partTextValue

theorem jsTruthyS_some {s : String} : jsTruthyS (some s) = true ↔ s ≠ "" := by
  simp [jsTruthyS]

theorem foldl_stepPart_eq (ps : List Part) :
    ∀ st, ps.foldl stepPart st =
      ((imageDatas ps).getLast?.elim st.1 (fun d => some (dataUriOf d)),
       (textValues ps).getLast?.elim st.2 some) := by
  induction ps using List.reverseRecOn with
  | nil => intro st; simp [imageDatas, textValues]
  | append_singleton ps p ih =>
    intro st
    rw [List.foldl_append, ih st]
    rcases hp : p.inlineData with _ | d
    · rcases ht : p.text with _ | t
      · simp [stepPart, hp, ht, imageDatas, textValues, partTextValue,
          List.filterMap_append]
      · by_cases he : t = ""
        · subst he
          simp [stepPart, hp, ht, imageDatas, textValues, partTextValue,
            List.filterMap_append]
        · simp [stepPart, hp, ht, imageDatas, textValues, partTextValue,
            List.filterMap_append, he]
    · simp [stepPart, hp, imageDatas, textValues, partTextValue,
        List.filterMap_append]

theorem extractParts_eq (ps : List Part) :
    extractParts ps =
      ((imageDatas ps).getLast?.map dataUriOf, (textValues ps).getLast?) := by
  rw [extractParts, foldl_stepPart_eq]
  cases (imageDatas ps).getLast? <;> cases (textValues ps).getLast? <;> rfl

theorem partTextValue_some {p : Part} {t : String} (h : partTextValue p = some t) :
    p.inlineData = none ∧ p.text = some t ∧ t ≠ "" := by
  unfold partTextValue at h
  split at h
  · cases h
  · split at h
    · split at h
      · cases h
        refine ⟨by assumption, by assumption, ?_⟩
        simpa using ‹(_ != "") = true›
      · cases h
    · cases h

theorem mem_textValues_ne {t : String} {ps : List Part} (h : t ∈ textValues ps) :
    t ≠ "" := by
  rcases List.mem_filterMap.mp h with ⟨p, _, hp⟩
  exact (partTextValue_some hp).2.2

theorem dataUriOf_ne (d : InlineData) : dataUriOf d ≠ "" := by
  intro h
  have hdata : (dataUriOf d).data = [] := by rw [h]
  rw [dataUriOf] at hdata
  simp only [String.data_append, List.append_eq_nil] at hdata
  exact absurd hdata.1.1.1 (by decide)

/-! ## Lemmas about the comma split -/

theorem mk_data (s : String) : String.mk s.data = s := rfl

theorem splitCommaAux_no_comma {cs : List Char} (h : ∀ c ∈ cs, c ≠ ',') (acc : List Char) :
    splitCommaAux acc cs = [acc.reverse ++ cs] := by
  induction cs generalizing acc with
  | nil => simp [splitCommaAux]
  | cons c cs' ih =>
    have hc : c ≠ ',' := h c (.head _)
    rw [splitCommaAux, if_neg hc, ih (fun x hx => h x (.tail _ hx))]
    simp

theorem splitCommaAux_comma {a : List Char} (h : ∀ c ∈ a, c ≠ ',') (acc rest : List Char) :
    splitCommaAux acc (a ++ ',' :: rest) = (acc.reverse ++ a) :: splitCommaAux [] rest := by
  induction a generalizing acc with
  | nil => simp [splitCommaAux]
  | cons c a' ih =>
    have hc : c ≠ ',' := h c (.head _)
    rw [List.cons_append, splitCommaAux, if_neg hc, ih (fun x hx => h x (.tail _ hx))]
    simp

theorem jsSplitComma_no_comma {s : String} (h : ∀ c ∈ s.data, c ≠ ',') :
    jsSplitComma s = [s] := by
  rw [jsSplitComma, splitCommaAux_no_comma h]
  rfl

theorem jsSplitComma_two {a b c : String} (ha : ∀ ch ∈ a.data, ch ≠ ',')
    (hb : ∀ ch ∈ b.data, ch ≠ ',') :
    jsSplitComma (a ++ "," ++ b ++ "," ++ c) =
      a :: b :: (splitCommaAux [] c.data).map String.mk := by
  have hcomma : ("," : String).data = [','] := rfl
  have hdata : (a ++ "," ++ b ++ "," ++ c).data =
      a.data ++ ',' :: (b.data ++ ',' :: c.data) := by
    simp [String.data_append, hcomma, List.append_assoc]
  rw [jsSplitComma, hdata, splitCommaAux_comma ha, splitCommaAux_comma hb]
  simp [mk_data]

/-! ## The marker scans never match marker-free text -/

theorem titleAt_eq_none {s : List Char} (h : titleMarkerAt s = false) : titleAt s = none := by
  unfold titleMarkerAt at h
  simp only [Bool.or_eq_false_iff] at h
  simp [titleAt, h.1, h.2]

theorem findTitle_eq_none {l : List Char} (h : hasTitleMarker l = false) : findTitle l = none := by
  induction l with
  | nil => rfl
  | cons c cs ih =>
    rw [hasTitleMarker] at h
    simp only [Bool.or_eq_false_iff] at h
    rw [findTitle, titleAt_eq_none h.1]
    exact ih h.2

theorem reasonGroupAt_eq_none {s : List Char} (h : reasonMarkerAt s = false) :
    reasonGroupAt s = none := by
  unfold reasonMarkerAt at h
  simp only [Bool.or_eq_false_iff] at h
  simp [reasonGroupAt, h.1, h.2]

theorem findReason_eq_none {l : List Char} (h : hasReasonMarker l = false) :
    findReason l = none := by
  induction l with
  | nil => rfl
  | cons c cs ih =>
    rw [hasReasonMarker] at h
    simp only [Bool.or_eq_false_iff] at h
    rw [findReason, reasonGroupAt_eq_none h.1]
    exact ih h.2

/-! ## Occurrence facts about the instruction templates -/

theorem head?_append_some {α : Type} {l : List α} {c : α} (y : List α)
    (h : l.head? = some c) : (l ++ y).head? = some c := by
  cases l with
  | nil => cases h
  | cons a t => simpa using h

theorem promptTemplate_data (p : String) : (promptTemplate p).data =
    promptT1.data ++ (p.data ++ (promptT2.data ++ (p.data ++
      (promptT3.data ++ (p.data ++ promptT4.data))))) := by
  simp [promptTemplate, String.data_append, List.append_assoc]

theorem promptTemplate_has_iyu (p : String) :
    strHas iyuPat (promptTemplate p).data = true := by
  rw [promptTemplate_data]
  exact strHas_append_right _ (strHas_append_right _ (strHas_append_right _
    (strHas_append_right _ (strHas_append_left _ (by decide)))))

theorem noPromptTemplate_has_iyu : strHas iyuPat noPromptTemplate.data = true := by decide

theorem noPromptTemplate_has_jik : strHas jikPat noPromptTemplate.data = true := by decide

/-- When the interpolated prompt itself does not contain the literal
`직업명:`, neither does the supplied-prompt instruction text: the fixed
template pieces do not contain it, and the junction characters
(`"` and `'`) cannot take part in an occurrence of it. -/
theorem promptTemplate_no_jik {p : String} (hp : strHas jikPat p.data = false) :
    strHas jikPat (promptTemplate p).data = false := by
  rw [promptTemplate_data]
  by_contra hne
  have hB : strHas jikPat (promptT1.data ++ (p.data ++ (promptT2.data ++ (p.data ++
      (promptT3.data ++ (p.data ++ promptT4.data)))))) = true := by
    rcases Bool.eq_false_or_eq_true (strHas jikPat (promptT1.data ++ (p.data ++
      (promptT2.data ++ (p.data ++ (promptT3.data ++ (p.data ++ promptT4.data))))))) with
      h | h <;> first | exact h | exact absurd h hne
  have hT1last : promptT1.data.getLast? = some '"' := by decide
  have hT2last : promptT2.data.getLast? = some '"' := by decide
  have hT3last : promptT3.data.getLast? = some '\'' := by decide
  have hT2head : promptT2.data.head? = some '"' := by decide
  have hT3head : promptT3.data.head? = some '"' := by decide
  have hT4head : promptT4.data.head? = some '\'' := by decide
  have s1 := strHas_append_resolve hB (by decide)
    (Or.inl (fun c hc => by
      rw [hT1last] at hc
      exact (Option.some.inj hc) ▸ (by decide)))
  have s2 := strHas_append_resolve s1 hp
    (Or.inr (fun c hc => by
      rw [head?_append_some _ hT2head] at hc
      exact (Option.some.inj hc) ▸ (by decide)))
  have s3 := strHas_append_resolve s2 (by decide)
    (Or.inl (fun c hc => by
      rw [hT2last] at hc
      exact (Option.some.inj hc) ▸ (by decide)))
  have s4 := strHas_append_resolve s3 hp
    (Or.inr (fun c hc => by
      rw [head?_append_some _ hT3head] at hc
      exact (Option.some.inj hc) ▸ (by decide)))
  have s5 := strHas_append_resolve s4 (by decide)
    (Or.inl (fun c hc => by
      rw [hT3last] at hc
      exact (Option.some.inj hc) ▸ (by decide)))
  have s6 := strHas_append_resolve s5 hp
    (Or.inr (fun c hc => by
      rw [hT4head] at hc
      exact (Option.some.inj hc) ▸ (by decide)))
  have : strHas jikPat promptT4.data = false := by decide
  rw [this] at s6
  cases s6

/-! ## Reduction lemmas for `interpret` -/

theorem interpret_blocked {cands : Option (List Candidate)} {pf : Option PromptFeedback}
    (prompt : String) (h : cands = none ∨ cands = some []) :
    interpret ⟨cands, pf⟩ prompt =
      .error (.blockedRequest (blockedMessage ⟨cands, pf⟩)) := by
  rcases h with h | h <;> subst h <;> rfl

theorem interpret_cons (c : Candidate) (rest : List Candidate) (pf : Option PromptFeedback)
    (prompt : String) :
    interpret ⟨some (c :: rest), pf⟩ prompt =
      (if jsTruthyS (extractFromCandidate c).1 && jsTruthyS (extractFromCandidate c).2 then
        .ok ⟨(extractFromCandidate c).1.getD "",
             (parseAnalysisText ((extractFromCandidate c).2.getD "") (some prompt)).title,
             (parseAnalysisText ((extractFromCandidate c).2.getD "") (some prompt)).description⟩
      else if c.finishReason = some "SAFETY" then
        .error .safetyBlockedFinish
      else
        match firstBlockedRating c with
        | some rating => .error (.safetyBlockedRating rating.category)
        | none =>
          match c.finishReason with
          | some fr =>
            if fr ≠ "" ∧ fr ≠ "STOP" then .error (.abnormalStop fr)
            else .error (.incompletePayload (jsTruthyS (extractFromCandidate c).1)
                   (jsTruthyS (extractFromCandidate c).2))
          | none => .error (.incompletePayload (jsTruthyS (extractFromCandidate c).1)
                   (jsTruthyS (extractFromCandidate c).2))) := rfl

theorem jsTruthy_and_false {c : Candidate}
    (h0 : jsTruthyS (extractFromCandidate c).1 = false ∨
          jsTruthyS (extractFromCandidate c).2 = false) :
    (jsTruthyS (extractFromCandidate c).1 && jsTruthyS (extractFromCandidate c).2) = false := by
  rcases h0 with h | h <;> simp [h]

theorem interpret_ok {c : Candidate} {rest : List Candidate}
    {pf : Option PromptFeedback} {prompt u t : String}
    (h1 : extractFromCandidate c = (some u, some t)) (hu : u ≠ "") (ht : t ≠ "") :
    interpret ⟨some (c :: rest), pf⟩ prompt =
      .ok ⟨u, (parseAnalysisText t (some prompt)).title,
            (parseAnalysisText t (some prompt)).description⟩ := by
  have h2 : jsTruthyS (some u) = true := jsTruthyS_some.mpr hu
  have h3 : jsTruthyS (some t) = true := jsTruthyS_some.mpr ht
  simp [interpret_cons, h1, h2, h3]

theorem interpret_fail_safety {c : Candidate} {rest : List Candidate}
    {pf : Option PromptFeedback} {prompt : String}
    (h0 : jsTruthyS (extractFromCandidate c).1 = false ∨
          jsTruthyS (extractFromCandidate c).2 = false)
    (hf : c.finishReason = some "SAFETY") :
    interpret ⟨some (c :: rest), pf⟩ prompt = .error .safetyBlockedFinish := by
  simp [interpret_cons, jsTruthy_and_false h0, hf]

theorem interpret_fail_rating {c : Candidate} {rest : List Candidate}
    {pf : Option PromptFeedback} {prompt : String} {rating : SafetyRating}
    (h0 : jsTruthyS (extractFromCandidate c).1 = false ∨
          jsTruthyS (extractFromCandidate c).2 = false)
    (hf : c.finishReason ≠ some "SAFETY") (hr : firstBlockedRating c = some rating) :
    interpret ⟨some (c :: rest), pf⟩ prompt =
      .error (.safetyBlockedRating rating.category) := by
  simp [interpret_cons, jsTruthy_and_false h0, hf, hr]

theorem interpret_fail_abnormal {c : Candidate} {rest : List Candidate}
    {pf : Option PromptFeedback} {prompt fr : String}
    (h0 : jsTruthyS (extractFromCandidate c).1 = false ∨
          jsTruthyS (extractFromCandidate c).2 = false)
    (hf : c.finishReason = some fr) (hfs : fr ≠ "SAFETY")
    (hr : firstBlockedRating c = none) (h1 : fr ≠ "") (h2 : fr ≠ "STOP") :
    interpret ⟨some (c :: rest), pf⟩ prompt = .error (.abnormalStop fr) := by
  simp [interpret_cons, jsTruthy_and_false h0, hf, hfs, hr, h1, h2]

theorem interpret_fail_incomplete {c : Candidate} {rest : List Candidate}
    {pf : Option PromptFeedback} {prompt : String}
    (h0 : jsTruthyS (extractFromCandidate c).1 = false ∨
          jsTruthyS (extractFromCandidate c).2 = false)
    (hf : c.finishReason = none ∨ c.finishReason = some "" ∨ c.finishReason = some "STOP")
    (hr : firstBlockedRating c = none) :
    interpret ⟨some (c :: rest), pf⟩ prompt =
      .error (.incompletePayload (jsTruthyS (extractFromCandidate c).1)
        (jsTruthyS (extractFromCandidate c).2)) := by
  rcases hf with h | h | h <;> simp [interpret_cons, jsTruthy_and_false h0, h, hr]

theorem getLast?_mem {α : Type} {l : List α} {a : α} (h : l.getLast? = some a) :
    a ∈ l := by
  induction l using List.reverseRecOn with
  | nil => cases h
  | append_singleton l x _ =>
    rw [List.getLast?_concat] at h
    cases h
    exact List.mem_append_right _ (List.mem_singleton_self _)

/-! ## The claims -/

/-- C7: round-trip — composing a request with prompt "Chef" produces
the image part (metadata prefix stripped) followed by the
supplied-prompt instruction, and interpreting a synthetic response that
contains one image part and one text part whose text is
"이유: Added a hat." under the same prompt yields a `GenerationResult`
with title "Chef" and description "Added a hat.". -/
theorem C7_round_trip :
    (composeRequest "data:image/png;base64,QUJD" "image/png" "Chef").parts =
      [RequestPart.image ⟨some "QUJD", "image/png"⟩,
       RequestPart.text (promptTemplate "Chef")] ∧
    interpret ⟨some [⟨some ⟨some [⟨some ⟨"image/png", "R0VO"⟩, none⟩,
        ⟨none, some "이유: Added a hat."⟩]⟩, some "STOP", none⟩], none⟩ "Chef" =
      .ok ⟨"data:image/png;base64,R0VO", "Chef", "Added a hat."⟩ :=
  ⟨rfl, rfl⟩

/-- C6: a response whose candidate list is absent or empty always fails
as a blocked request; the message carries the top-level block reason
when it is (truthily) present and is the generic safety-block message
otherwise; no `GenerationResult` is produced. -/
theorem C6_blocked_request :
    ∀ (cands : Option (List Candidate)) (pf : Option PromptFeedback) (prompt : String),
      (cands = none ∨ cands = some []) →
      interpret ⟨cands, pf⟩ prompt =
        .error (.blockedRequest (blockedMessage ⟨cands, pf⟩)) ∧
      (∀ r : String, pf = some ⟨some r⟩ → r ≠ "" →
        blockedMessage ⟨cands, pf⟩ =
          "Request blocked: " ++ r ++ ". Please adjust your input." ∧
        strHas r.data (blockedMessage ⟨cands, pf⟩).data = true) ∧
      ((pf = none ∨ pf = some ⟨none⟩ ∨ pf = some ⟨some ""⟩) →
        blockedMessage ⟨cands, pf⟩ =
          "The request was blocked, likely for safety reasons. Please try a different image or prompt.") := by
  intro cands pf prompt h
  refine ⟨interpret_blocked prompt h, ?_, ?_⟩
  · intro r hpf hr
    subst hpf
    have hmsg : blockedMessage ⟨cands, some ⟨some r⟩⟩ =
        "Request blocked: " ++ r ++ ". Please adjust your input." := by
      simp [blockedMessage, hr]
    refine ⟨hmsg, ?_⟩
    rw [hmsg]
    have hdata : ("Request blocked: " ++ r ++ ". Please adjust your input.").data =
        "Request blocked: ".data ++ (r.data ++ ". Please adjust your input.".data) := by
      simp [String.data_append, List.append_assoc]
    rw [hdata]
    exact strHas_append_right _ (strHas_append_left _
      (strHas_of_starts (strStarts_refl _)))
  · intro h3
    rcases h3 with h3 | h3 | h3 <;> subst h3 <;> simp [blockedMessage]

/-- C6 witness at a concrete blocked response. -/
theorem C6_blocked_request_witness :
    interpret ⟨none, some ⟨some "PROHIBITED_CONTENT"⟩⟩ "" =
      .error (.blockedRequest (blockedMessage ⟨none, some ⟨some "PROHIBITED_CONTENT"⟩⟩)) ∧
    blockedMessage ⟨none, some ⟨some "PROHIBITED_CONTENT"⟩⟩ =
      "Request blocked: " ++ "PROHIBITED_CONTENT" ++ ". Please adjust your input." :=
  ⟨(C6_blocked_request none (some ⟨some "PROHIBITED_CONTENT"⟩) "" (Or.inl rfl)).1,
   ((C6_blocked_request none (some ⟨some "PROHIBITED_CONTENT"⟩) ""
      (Or.inl rfl)).2.1 "PROHIBITED_CONTENT" rfl (by decide)).1⟩

/-- C9: the empty prompt behaves exactly like an absent prompt: the
composer emits the no-prompt instruction template (which contains both
`직업명:` and `이유:`), and `parseAnalysisText` with `some ""` equals
`parseAnalysisText` with `none` on every text. -/
theorem C9_empty_prompt_equiv :
    (∀ img mime : String,
      (composeRequest img mime "").parts =
        [RequestPart.image ⟨(jsSplitComma img)[1]?, mime⟩,
         RequestPart.text noPromptTemplate]) ∧
    strHas jikPat noPromptTemplate.data = true ∧
    strHas iyuPat noPromptTemplate.data = true ∧
    (∀ t : String, parseAnalysisText t (some "") = parseAnalysisText t none) :=
  ⟨fun _ _ => rfl, noPromptTemplate_has_jik, noPromptTemplate_has_iyu, fun _ => rfl⟩

/-- C10: the metadata-prefix stripping is JS `split(',')[1]`: with no
comma the image part's data is absent (no error is raised), and with
two or more commas it is exactly the text between the first and second
comma, the rest being dropped. -/
theorem C10_comma_split :
    (∀ s mime prompt : String, (∀ ch ∈ s.data, ch ≠ ',') →
      (composeRequest s mime prompt).parts.head? =
        some (RequestPart.image ⟨none, mime⟩)) ∧
    (∀ a b c mime prompt : String,
      (∀ ch ∈ a.data, ch ≠ ',') → (∀ ch ∈ b.data, ch ≠ ',') →
      (composeRequest (a ++ "," ++ b ++ "," ++ c) mime prompt).parts.head? =
        some (RequestPart.image ⟨some b, mime⟩)) := by
  constructor
  · intro s mime prompt h
    simp [composeRequest, jsSplitComma_no_comma h]
  · intro a b c mime prompt ha hb
    simp [composeRequest, jsSplitComma_two ha hb]

/-- C10 witness at concrete inputs with zero and two commas. -/
theorem C10_comma_split_witness :
    (composeRequest "nocomma" "image/png" "p").parts.head? =
      some (RequestPart.image ⟨none, "image/png"⟩) ∧
    (composeRequest ("data:image/png;base64" ++ "," ++ "QUJD" ++ "," ++ "junk")
        "image/png" "p").parts.head? =
      some (RequestPart.image ⟨some "QUJD", "image/png"⟩) :=
  ⟨C10_comma_split.1 "nocomma" "image/png" "p" (by decide),
   C10_comma_split.2 "data:image/png;base64" "QUJD" "junk" "image/png" "p"
     (by decide) (by decide)⟩

/-- C3: the no-prompt parse path, branch by branch.  When the title
regex matches, the title is its capture (the text after the marker up
to the line break), trimmed; when the text has no title marker the
title is the fallback literal "분석 결과".  When the reason regex
matches, the description is its capture (to end of text), trimmed;
when the reason marker is absent but the title regex matched, the
description is the raw text with the matched title line removed,
trimmed; when neither marker occurs, the description is the raw text
itself.  The two concrete spec examples, and a concrete instance of
the title-without-reason branch, evaluate as stated. -/
theorem C3_parse_no_prompt :
    (∀ (text : String) (m g : List Char), findTitle text.data = some (m, g) →
      (parseAnalysisText text none).title = String.mk (listTrim g)) ∧
    (∀ text : String, hasTitleMarker text.data = false →
      (parseAnalysisText text none).title = "분석 결과") ∧
    (∀ (text : String) (g : List Char), findReason text.data = some g →
      (parseAnalysisText text none).description = String.mk (listTrim g)) ∧
    (∀ (text : String) (m g : List Char), hasReasonMarker text.data = false →
      findTitle text.data = some (m, g) →
      (parseAnalysisText text none).description =
        String.mk (listTrim (replaceFirst m text.data))) ∧
    (∀ text : String, hasTitleMarker text.data = false →
      hasReasonMarker text.data = false →
      (parseAnalysisText text none).description = text) ∧
    parseAnalysisText "직업명: Chef\n이유: Added an apron." none =
      ⟨"Chef", "Added an apron."⟩ ∧
    parseAnalysisText "직업명: Chef\nhe is great" none =
      ⟨"Chef", "he is great"⟩ ∧
    parseAnalysisText "some free text with no markers" none =
      ⟨"분석 결과", "some free text with no markers"⟩ := by
  refine ⟨?_, ?_, ?_, ?_, ?_, rfl, rfl, rfl⟩
  · intro text m g h
    simp [parseAnalysisText, jsTruthyS, h]
  · intro text h
    simp [parseAnalysisText, jsTruthyS, findTitle_eq_none h]
  · intro text g h
    simp [parseAnalysisText, jsTruthyS, h]
  · intro text m g hr ht
    simp [parseAnalysisText, jsTruthyS, findReason_eq_none hr, ht]
  · intro text h1 h2
    simp [parseAnalysisText, jsTruthyS, findTitle_eq_none h1, findReason_eq_none h2]

/-- C3 witness: concrete applications of every hypothesis-bearing
branch — title matched, title absent, reason matched, title matched
with reason absent, and neither marker present. -/
theorem C3_parse_no_prompt_witness :
    (parseAnalysisText "직업명: Chef\nhe is great" none).title =
      String.mk (listTrim "Chef".data) ∧
    (parseAnalysisText "plain text" none).title = "분석 결과" ∧
    (parseAnalysisText "직업명: Chef\n이유: Added an apron." none).description =
      String.mk (listTrim "Added an apron.".data) ∧
    (parseAnalysisText "직업명: Chef\nhe is great" none).description =
      String.mk (listTrim (replaceFirst "직업명: Chef\n".data
        "직업명: Chef\nhe is great".data)) ∧
    (parseAnalysisText "plain text" none).description = "plain text" :=
  ⟨C3_parse_no_prompt.1 "직업명: Chef\nhe is great" "직업명: Chef\n".data "Chef".data
     (by decide),
   C3_parse_no_prompt.2.1 "plain text" (by decide),
   C3_parse_no_prompt.2.2.1 "직업명: Chef\n이유: Added an apron."
     "Added an apron.".data (by decide),
   C3_parse_no_prompt.2.2.2.1 "직업명: Chef\nhe is great" "직업명: Chef\n".data
     "Chef".data (by decide) (by decide),
   C3_parse_no_prompt.2.2.2.2.1 "plain text" (by decide) (by decide)⟩

/-- C4 counterexample: with a supplied prompt and a text carrying no
reason marker, the description is the raw text unchanged — the claim's
"entire raw text, trimmed" fails on a text with surrounding
whitespace. -/
theorem C4_parse_with_prompt_counterexample :
    parseAnalysisText " hello " (some "Astronaut") = ⟨"Astronaut", " hello "⟩ ∧
    parseAnalysisText " hello " (some "Astronaut") ≠ ⟨"Astronaut", "hello"⟩ :=
  ⟨rfl, by decide⟩

/-- C4 (amended): with a supplied non-empty prompt the title is the
prompt verbatim and the description is the substring after the first
case-insensitive `Reason:`/`이유:` marker (spanning newlines), trimmed;
when no such marker is present the description is the entire raw text
UNTRIMMED; the title marker is ignored on this path.  Includes the
spec's concrete example. -/
theorem C4_parse_with_prompt :
    (∀ text p : String, p ≠ "" →
      (parseAnalysisText text (some p)).title = p ∧
      (∀ g : List Char, findReason text.data = some g →
        (parseAnalysisText text (some p)).description = String.mk (listTrim g)) ∧
      (hasReasonMarker text.data = false →
        (parseAnalysisText text (some p)).description = text)) ∧
    parseAnalysisText "이유: because space." (some "Astronaut") =
      ⟨"Astronaut", "because space."⟩ := by
  refine ⟨?_, rfl⟩
  intro text p hp
  have htr : jsTruthyS (some p) = true := jsTruthyS_some.mpr hp
  refine ⟨?_, ?_, ?_⟩
  · simp [parseAnalysisText, htr]
  · intro g hg
    simp [parseAnalysisText, htr, hg]
  · intro h
    simp [parseAnalysisText, htr, findReason_eq_none h]

/-- C4 witness at concrete inputs exercising both description cases. -/
theorem C4_parse_with_prompt_witness :
    (parseAnalysisText "이유: because space." (some "Astronaut")).title = "Astronaut" ∧
    (parseAnalysisText "note" (some "Astronaut")).description = "note" :=
  ⟨(C4_parse_with_prompt.1 "이유: because space." "Astronaut" (by decide)).1,
   (C4_parse_with_prompt.1 "note" "Astronaut" (by decide)).2.2 (by decide)⟩

/-- C5 counterexample: a supplied prompt is interpolated verbatim into
the instruction template, so the prompt "직업명: 의사" makes the
instruction text contain the literal `직업명:` even though a prompt was
supplied — the claimed "exactly the marker set `이유:`" fails. -/
theorem C5_compose_markers_counterexample :
    (composeRequest "data:image/png;base64,QUJD" "image/png" "직업명: 의사").parts[1]? =
      some (RequestPart.text (promptTemplate "직업명: 의사")) ∧
    strHas jikPat (promptTemplate "직업명: 의사").data = true := by
  refine ⟨rfl, ?_⟩
  rw [promptTemplate_data]
  exact strHas_append_right _ (strHas_append_left _ (by decide))

/-- C5 (amended): `composeRequest` always produces exactly two parts in
fixed order — image part (with the comma-split data and the unchanged
media type) then instruction part; the no-prompt instruction contains
both `직업명:` and `이유:`; a supplied-prompt instruction contains
`이유:`, and it contains `직업명:` only if the interpolated prompt
itself carries it. -/
theorem C5_compose_parts_markers :
    ∀ img mime prompt : String,
      (composeRequest img mime prompt).parts =
        [RequestPart.image ⟨(jsSplitComma img)[1]?, mime⟩,
         RequestPart.text (if prompt != "" then promptTemplate prompt
                           else noPromptTemplate)] ∧
      strHas iyuPat noPromptTemplate.data = true ∧
      strHas jikPat noPromptTemplate.data = true ∧
      (prompt ≠ "" → strHas iyuPat (promptTemplate prompt).data = true) ∧
      (prompt ≠ "" → strHas jikPat prompt.data = false →
        strHas jikPat (promptTemplate prompt).data = false) :=
  fun _ _ prompt =>
    ⟨rfl, noPromptTemplate_has_iyu, noPromptTemplate_has_jik,
     fun _ => promptTemplate_has_iyu prompt, fun _ hp => promptTemplate_no_jik hp⟩

/-- C5 witness: at the prompt "Chef" the instruction contains `이유:`
and not `직업명:`. -/
theorem C5_compose_parts_markers_witness :
    strHas iyuPat (promptTemplate "Chef").data = true ∧
    strHas jikPat (promptTemplate "Chef").data = false :=
  ⟨(C5_compose_parts_markers "a,b" "image/png" "Chef").2.2.2.1 (by decide),
   (C5_compose_parts_markers "a,b" "image/png" "Chef").2.2.2.2 (by decide) (by decide)⟩

/-- C1: when the first candidate's parts contain at least one image
part and at least one text part with truthy text, interpretation never
fails: it succeeds with the data URI of the LAST image part's payload
and with title/description parsed from the LAST truthy text; and
conversely interpretation only succeeds when the first candidate's
parts contain both such parts. -/
theorem C1_success_iff_parts :
    (∀ (c : Candidate) (rest : List Candidate) (pf : Option PromptFeedback)
       (prompt : String) (ct : Content) (ps : List Part),
      c.content = some ct → ct.parts = some ps →
      (∃ p ∈ ps, p.inlineData.isSome) →
      (∃ p ∈ ps, p.inlineData = none ∧ jsTruthyS p.text = true) →
      ∃ (d : InlineData) (t : String),
        (imageDatas ps).getLast? = some d ∧
        (textValues ps).getLast? = some t ∧
        interpret ⟨some (c :: rest), pf⟩ prompt =
          .ok ⟨dataUriOf d, (parseAnalysisText t (some prompt)).title,
               (parseAnalysisText t (some prompt)).description⟩) ∧
    (∀ (r : GenerateContentResponse) (prompt : String) (g : GenerationResult),
      interpret r prompt = .ok g →
      ∃ (c : Candidate) (rest : List Candidate) (ct : Content) (ps : List Part),
        r.candidates = some (c :: rest) ∧ c.content = some ct ∧ ct.parts = some ps ∧
        (∃ p ∈ ps, p.inlineData.isSome) ∧
        (∃ p ∈ ps, p.inlineData = none ∧ jsTruthyS p.text = true)) := by
  constructor
  · intro c rest pf prompt ct ps hct hps himg htxt
    obtain ⟨pi, hpimem, hpi⟩ := himg
    obtain ⟨d0, hd0⟩ := Option.isSome_iff_exists.mp hpi
    have hdmem : d0 ∈ imageDatas ps := List.mem_filterMap.mpr ⟨pi, hpimem, hd0⟩
    obtain ⟨d, hd⟩ := Option.isSome_iff_exists.mp
      (List.getLast?_isSome.mpr (List.ne_nil_of_mem hdmem))
    obtain ⟨pt, hptmem, hpt1, hpt2⟩ := htxt
    obtain ⟨t0, ht0⟩ : ∃ t0, pt.text = some t0 := by
      cases h : pt.text with
      | none => rw [h] at hpt2; simp [jsTruthyS] at hpt2
      | some s => exact ⟨s, rfl⟩
    have ht0ne : t0 ≠ "" := by
      rw [ht0] at hpt2; exact jsTruthyS_some.mp hpt2
    have hbne : (t0 != "") = true := by simpa using ht0ne
    have hptv : partTextValue pt = some t0 := by
      simp [partTextValue, hpt1, ht0, hbne]
    have htmem : t0 ∈ textValues ps := List.mem_filterMap.mpr ⟨pt, hptmem, hptv⟩
    obtain ⟨t, ht⟩ := Option.isSome_iff_exists.mp
      (List.getLast?_isSome.mpr (List.ne_nil_of_mem htmem))
    refine ⟨d, t, hd, ht, ?_⟩
    have hext : extractFromCandidate c = (some (dataUriOf d), some t) := by
      simp [extractFromCandidate, hct, hps, extractParts_eq, hd, ht]
    exact interpret_ok hext (dataUriOf_ne d) (mem_textValues_ne (getLast?_mem ht))
  · intro r prompt g h
    obtain ⟨cands, pf⟩ := r
    cases cands with
    | none => rw [interpret_blocked prompt (Or.inl rfl)] at h; exact (Except.noConfusion h)
    | some l =>
      cases l with
      | nil => rw [interpret_blocked prompt (Or.inr rfl)] at h; exact (Except.noConfusion h)
      | cons c rest =>
        rw [interpret_cons] at h
        by_cases hb : (jsTruthyS (extractFromCandidate c).1 &&
            jsTruthyS (extractFromCandidate c).2) = true
        · rw [Bool.and_eq_true] at hb
          obtain ⟨hb1, hb2⟩ := hb
          cases hcc : c.content with
          | none =>
            have hz : extractFromCandidate c = (none, none) := by
              simp [extractFromCandidate, hcc]
            rw [hz] at hb1; simp [jsTruthyS] at hb1
          | some ct =>
            cases hpp : ct.parts with
            | none =>
              have hz : extractFromCandidate c = (none, none) := by
                simp [extractFromCandidate, hcc, hpp]
              rw [hz] at hb1; simp [jsTruthyS] at hb1
            | some ps =>
              have hext : extractFromCandidate c =
                  ((imageDatas ps).getLast?.map dataUriOf, (textValues ps).getLast?) := by
                simp [extractFromCandidate, hcc, hpp, extractParts_eq]
              rw [hext] at hb1 hb2
              obtain ⟨d, hd⟩ : ∃ d, (imageDatas ps).getLast? = some d := by
                cases hq : (imageDatas ps).getLast? with
                | none => rw [hq] at hb1; simp [jsTruthyS] at hb1
                | some d => exact ⟨d, rfl⟩
              obtain ⟨p1, hp1mem, hp1⟩ := List.mem_filterMap.mp (getLast?_mem hd)
              obtain ⟨t, htl⟩ : ∃ t, (textValues ps).getLast? = some t := by
                cases hq : (textValues ps).getLast? with
                | none => rw [hq] at hb2; simp [jsTruthyS] at hb2
                | some t => exact ⟨t, rfl⟩
              obtain ⟨p2, hp2mem, hp2⟩ := List.mem_filterMap.mp (getLast?_mem htl)
              obtain ⟨hpa, hpb, hpc⟩ := partTextValue_some hp2
              refine ⟨c, rest, ct, ps, rfl, hcc, hpp,
                ⟨p1, hp1mem, by rw [hp1]; rfl⟩,
                ⟨p2, hp2mem, hpa, by rw [hpb]; exact jsTruthyS_some.mpr hpc⟩⟩
        · have hbf : (jsTruthyS (extractFromCandidate c).1 &&
              jsTruthyS (extractFromCandidate c).2) = false := by
            rcases Bool.eq_false_or_eq_true (jsTruthyS (extractFromCandidate c).1 &&
              jsTruthyS (extractFromCandidate c).2) with h' | h' <;>
              first | exact h' | exact absurd h' hb
          rw [if_neg (by simp [hbf])] at h
          split at h
          · exact (Except.noConfusion h)
          · split at h
            · exact (Except.noConfusion h)
            · split at h
              · split at h
                · exact (Except.noConfusion h)
                · exact (Except.noConfusion h)
              · exact (Except.noConfusion h)

/-- C1 witness at a concrete one-image-one-text candidate. -/
theorem C1_success_iff_parts_witness :
    ∃ (d : InlineData) (t : String),
      (imageDatas [⟨some ⟨"image/png", "R0VO"⟩, none⟩,
        ⟨none, some "이유: ok"⟩]).getLast? = some d ∧
      (textValues [⟨some ⟨"image/png", "R0VO"⟩, none⟩,
        ⟨none, some "이유: ok"⟩]).getLast? = some t ∧
      interpret ⟨some [⟨some ⟨some [⟨some ⟨"image/png", "R0VO"⟩, none⟩,
          ⟨none, some "이유: ok"⟩]⟩, some "STOP", none⟩], none⟩ "Chef" =
        .ok ⟨dataUriOf d, (parseAnalysisText t (some "Chef")).title,
             (parseAnalysisText t (some "Chef")).description⟩ :=
  C1_success_iff_parts.1 ⟨some ⟨some [⟨some ⟨"image/png", "R0VO"⟩, none⟩,
      ⟨none, some "이유: ok"⟩]⟩, some "STOP", none⟩ [] none "Chef"
    ⟨some [⟨some ⟨"image/png", "R0VO"⟩, none⟩, ⟨none, some "이유: ok"⟩]⟩
    [⟨some ⟨"image/png", "R0VO"⟩, none⟩, ⟨none, some "이유: ok"⟩] rfl rfl
    ⟨⟨some ⟨"image/png", "R0VO"⟩, none⟩, by decide, by decide⟩
    ⟨⟨none, some "이유: ok"⟩, by decide, rfl, by decide⟩

/-- C2: when the extracted image or text is missing, the failure
classification follows the fixed order: finish reason `"SAFETY"` first
(even when a blocked rating also exists, and without naming a
category), then the first blocked safety rating (naming its category),
then a truthy non-`"STOP"` finish reason, then the incomplete-payload
failure whose message distinguishes image-but-no-text,
text-but-no-image, and neither. -/
theorem C2_failure_classification_order :
    ∀ (c : Candidate) (rest : List Candidate) (pf : Option PromptFeedback)
      (prompt : String),
      (jsTruthyS (extractFromCandidate c).1 = false ∨
       jsTruthyS (extractFromCandidate c).2 = false) →
      ((c.finishReason = some "SAFETY" →
        interpret ⟨some (c :: rest), pf⟩ prompt = .error .safetyBlockedFinish) ∧
      (∀ rating : SafetyRating, c.finishReason ≠ some "SAFETY" →
        firstBlockedRating c = some rating →
        interpret ⟨some (c :: rest), pf⟩ prompt =
          .error (.safetyBlockedRating rating.category)) ∧
      (∀ fr : String, c.finishReason = some fr → fr ≠ "SAFETY" →
        firstBlockedRating c = none → fr ≠ "" → fr ≠ "STOP" →
        interpret ⟨some (c :: rest), pf⟩ prompt = .error (.abnormalStop fr)) ∧
      ((c.finishReason = none ∨ c.finishReason = some "" ∨
        c.finishReason = some "STOP") →
        firstBlockedRating c = none →
        interpret ⟨some (c :: rest), pf⟩ prompt =
          .error (.incompletePayload (jsTruthyS (extractFromCandidate c).1)
            (jsTruthyS (extractFromCandidate c).2))) ∧
      (GenFailure.incompletePayload true false).message =
        "The API returned an image but no descriptive text. The model might have failed to generate the analysis part. Please try again with a different image or prompt." ∧
      (GenFailure.incompletePayload false true).message =
        "The API returned an analysis but no image. The model might have failed to generate the image part. Please try again with a different image or prompt." ∧
      (GenFailure.incompletePayload false false).message =
        "API did not return both an image and text. The model may have been unable to fulfill the request. Please try again with a different image or prompt.") :=
  fun _ _ _ _ h0 =>
    ⟨fun hf => interpret_fail_safety h0 hf,
     fun _ hf hr => interpret_fail_rating h0 hf hr,
     fun _ hf hfs hr h1 h2 => interpret_fail_abnormal h0 hf hfs hr h1 h2,
     fun hf hr => interpret_fail_incomplete h0 hf hr,
     rfl, rfl, rfl⟩

/-- C2 witness: the tie-break — finish reason `"SAFETY"` together with
a blocked rating still yields the finish-reason safety failure. -/
theorem C2_failure_classification_order_witness :
    interpret ⟨some [⟨some ⟨some []⟩, some "SAFETY",
        some [⟨"HARM_CATEGORY_DANGEROUS_CONTENT", true⟩]⟩], none⟩ "" =
      .error .safetyBlockedFinish :=
  (C2_failure_classification_order
    ⟨some ⟨some []⟩, some "SAFETY", some [⟨"HARM_CATEGORY_DANGEROUS_CONTENT", true⟩]⟩
    [] none "" (Or.inl (by decide))).1 rfl

/-- C8: a part carrying both image data and text contributes only its
image (its text never becomes the analysis text), and a candidate whose
parts contain an image part but whose text parts all carry the empty
string fails — with the image-but-no-text incomplete-payload failure
when no safety signal applies. -/
theorem C8_empty_text_ignored :
    (∀ (st : Option String × Option String) (d : InlineData) (t : Option String),
      stepPart st ⟨some d, t⟩ = (some (dataUriOf d), st.2)) ∧
    (∀ (ps : List Part) (p : Part) (d : InlineData), p.inlineData = some d →
      (extractParts (ps ++ [p])).2 = (extractParts ps).2 ∧
      (extractParts (ps ++ [p])).1 = some (dataUriOf d)) ∧
    (∀ (c : Candidate) (rest : List Candidate) (pf : Option PromptFeedback)
       (prompt : String) (ct : Content) (ps : List Part),
      c.content = some ct → ct.parts = some ps →
      (∃ p ∈ ps, p.inlineData.isSome) →
      (∀ p ∈ ps, p.inlineData = none → p.text = none ∨ p.text = some "") →
      (∃ e : GenFailure, interpret ⟨some (c :: rest), pf⟩ prompt = .error e) ∧
      ((c.finishReason = none ∨ c.finishReason = some "" ∨
        c.finishReason = some "STOP") →
        firstBlockedRating c = none →
        interpret ⟨some (c :: rest), pf⟩ prompt =
          .error (.incompletePayload true false))) := by
  refine ⟨fun st d t => rfl, ?_, ?_⟩
  · intro ps p d hd
    have hstep : extractParts (ps ++ [p]) = stepPart (extractParts ps) p := by
      rw [extractParts, extractParts, List.foldl_append]; rfl
    rw [hstep]
    unfold stepPart
    rw [hd]
    exact ⟨rfl, rfl⟩
  · intro c rest pf prompt ct ps hct hps himg hempty
    have htv : textValues ps = [] := by
      rw [textValues, List.filterMap_eq_nil_iff]
      intro p hp
      unfold partTextValue
      cases hpi : p.inlineData with
      | some d => rfl
      | none =>
        rcases hempty p hp hpi with ht | ht <;> rw [ht]
        rfl
    obtain ⟨pi, hpimem, hpi⟩ := himg
    obtain ⟨d0, hd0⟩ := Option.isSome_iff_exists.mp hpi
    have hdmem : d0 ∈ imageDatas ps := List.mem_filterMap.mpr ⟨pi, hpimem, hd0⟩
    obtain ⟨d, hd⟩ := Option.isSome_iff_exists.mp
      (List.getLast?_isSome.mpr (List.ne_nil_of_mem hdmem))
    have hext : extractFromCandidate c = (some (dataUriOf d), none) := by
      simp [extractFromCandidate, hct, hps, extractParts_eq, hd, htv]
    have h0 : jsTruthyS (extractFromCandidate c).2 = false := by rw [hext]; rfl
    have himgT : jsTruthyS (extractFromCandidate c).1 = true := by
      rw [hext]; exact jsTruthyS_some.mpr (dataUriOf_ne d)
    constructor
    · by_cases hsf : c.finishReason = some "SAFETY"
      · exact ⟨_, interpret_fail_safety (Or.inr h0) hsf⟩
      · cases hbr : firstBlockedRating c with
        | some rating => exact ⟨_, interpret_fail_rating (Or.inr h0) hsf hbr⟩
        | none =>
          cases hfr : c.finishReason with
          | none => exact ⟨_, interpret_fail_incomplete (Or.inr h0) (Or.inl hfr) hbr⟩
          | some fr =>
            by_cases h1 : fr = ""
            · exact ⟨_, interpret_fail_incomplete (Or.inr h0)
                (Or.inr (Or.inl (h1 ▸ hfr))) hbr⟩
            · by_cases h2 : fr = "STOP"
              · exact ⟨_, interpret_fail_incomplete (Or.inr h0)
                  (Or.inr (Or.inr (h2 ▸ hfr))) hbr⟩
              · have hfs : fr ≠ "SAFETY" := by
                  intro hh; rw [hh] at hfr; exact hsf hfr
                exact ⟨_, interpret_fail_abnormal (Or.inr h0) hfr hfs hbr h1 h2⟩
    · intro hf hr
      have hi := @interpret_fail_incomplete c rest pf prompt (Or.inr h0) hf hr
      rw [himgT, h0] at hi
      exact hi

/-- C8 witness at a candidate with an image-and-text part and an
empty-string text part. -/
theorem C8_empty_text_ignored_witness :
    interpret ⟨some [⟨some ⟨some [⟨some ⟨"image/png", "QUJD"⟩, some "ignored"⟩,
        ⟨none, some ""⟩]⟩, some "STOP", none⟩], none⟩ "" =
      .error (.incompletePayload true false) :=
  (C8_empty_text_ignored.2.2
    ⟨some ⟨some [⟨some ⟨"image/png", "QUJD"⟩, some "ignored"⟩, ⟨none, some ""⟩]⟩,
      some "STOP", none⟩ [] none ""
    ⟨some [⟨some ⟨"image/png", "QUJD"⟩, some "ignored"⟩, ⟨none, some ""⟩]⟩
    [⟨some ⟨"image/png", "QUJD"⟩, some "ignored"⟩, ⟨none, some ""⟩] rfl rfl
    ⟨⟨some ⟨"image/png", "QUJD"⟩, some "ignored"⟩, by decide, by decide⟩
    (by decide)).2 (Or.inr (Or.inr rfl)) rfl

end CareerVision
